import Mathlib

/-!
Shallow embedding of the Shopify→Hanteo synchronization pipeline
(hanteo.service, sync.service, validators, error-handler) and proofs about
its specification.  Machine time (`Date.now()`, `new Date().getFullYear()`)
is passed as an explicit parameter; network calls are modelled by explicit
server oracles; thrown exceptions become `Except` errors.
-/

namespace Spec2Proof

/-! ## Data model -/

/-- Modelled from the spec: customer demographic fields of a Transaction
(src/models/sales.model.ts is not in the source snapshot; fields follow
§3 of the spec and the Joi schema in the validators). -/
structure CustomerInfo where
  id : String
  email : Option String
  gender : Option String
  birthYear : Option String
  deriving Repr, DecidableEq

/-- Modelled from the spec: shipping fields of a Transaction
(src/models/sales.model.ts is not in the source snapshot). -/
structure ShippingInfo where
  country : String
  countryCode : String
  city : Option String
  province : Option String
  deriving Repr, DecidableEq

/-- Modelled from the spec: a sales Transaction (§3 of the spec; the Joi
schema in the validators lists the same fields).  `transactionTime` is a
millisecond epoch timestamp; `status` is kept as a plain string drawn from
pending/sent/failed/cancelled. -/
structure SalesTransaction where
  orderId : String
  orderName : String
  fulfillmentId : Option String
  lineItemId : String
  productId : String
  variantId : String
  barcode : String
  albumName : String
  quantity : Nat
  customerInfo : Option CustomerInfo
  shippingInfo : Option ShippingInfo
  transactionTime : Nat
  trackingNumber : Option String
  status : String
  deriving Repr, DecidableEq

/-- Modelled from the spec: the per-batch result payload of the reporting
API (§6 of the spec): counts plus an optional per-record failure map keyed
by dedup token (`failData`), modelled as an association list. -/
structure ResultData where
  requestCount : Nat
  successCount : Nat
  failCount : Nat
  failData : Option (List (String × String))
  deriving Repr, DecidableEq

/-- Modelled from the spec: the reporting API response envelope for a sales
submission (§6 of the spec). -/
structure HanteoSalesResponse where
  code : Nat
  message : String
  resultData : Option ResultData
  deriving Repr, DecidableEq

/-- Modelled from the spec: the token endpoint result payload (§6). -/
structure TokenResultData where
  access_token : String
  token_type : String
  expires_in : Nat
  deriving Repr, DecidableEq

/-- Modelled from the spec: the token endpoint response envelope (§6). -/
structure HanteoTokenResponse where
  code : Nat
  message : String
  resultData : Option TokenResultData
  deriving Repr, DecidableEq

/-- Modelled from the spec: the stored token (§3 AuthToken).  `expiresAt`
is a millisecond epoch timestamp. -/
structure HanteoToken where
  accessToken : String
  tokenType : String
  expiresAt : Nat
  deriving Repr, DecidableEq

/-! ## Configuration constants (src/config/hanteo.config.ts) -/

def HANTEO_SUCCESS : Nat := 100

def HANTEO_PARTIAL_SUCCESS : Nat := 101

def HANTEO_INVALID_DATA : Nat := 604

def HANTEO_INVALID_TOKEN : Nat := 821

def HANTEO_TOKEN_EXPIRED : Nat := 822

def maxBatchSize : Nat := 100

def retryAttempts : Nat := 3

/-! ## Validators (src/utils/validators.ts) -/

/-- The set of characters removed by the JavaScript `String.prototype.trim`
(ECMAScript WhiteSpace and LineTerminator code points). -/
def isJsWhitespace (c : Char) : Bool :=
  let n := c.toNat
  n == 0x09 || n == 0x0a || n == 0x0b || n == 0x0c || n == 0x0d || n == 0x20 ||
  n == 0xa0 || n == 0x1680 || (0x2000 ≤ n && n ≤ 0x200a) ||
  n == 0x2028 || n == 0x2029 || n == 0x202f || n == 0x205f || n == 0x3000 ||
  n == 0xfeff

/-- JavaScript `barcode.trim()`: drop leading and trailing whitespace. -/
def jsTrimList (s : List Char) : List Char :=
  ((s.dropWhile isJsWhitespace).reverse.dropWhile isJsWhitespace).reverse

/-- The regex character class `[0-9]`. -/
def isDigitChar (c : Char) : Bool :=
  48 ≤ c.toNat && c.toNat ≤ 57

/-- Regex `^[0-9]{13}$` (BARCODE_PATTERNS.EAN13). -/
def matchesEAN13 (s : List Char) : Bool :=
  s.length == 13 && s.all isDigitChar

/-- Regex `^[0-9]{8}$` (BARCODE_PATTERNS.EAN8). -/
def matchesEAN8 (s : List Char) : Bool :=
  s.length == 8 && s.all isDigitChar

/-- Regex `^[0-9]{12}$` (BARCODE_PATTERNS.UPC). -/
def matchesUPC (s : List Char) : Bool :=
  s.length == 12 && s.all isDigitChar

/-- Regex `^[0-9]{9}[0-9X]$` (BARCODE_PATTERNS.ISBN10). -/
def matchesISBN10 (s : List Char) : Bool :=
  s.length == 10 && (s.take 9).all isDigitChar &&
    (s.drop 9).all (fun c => isDigitChar c || c == 'X')

/-- Regex `^97[89][0-9]{10}$` (BARCODE_PATTERNS.ISBN13). -/
def matchesISBN13 (s : List Char) : Bool :=
  s.length == 13 && s.take 2 == ['9', '7'] &&
    ((s.drop 2).take 1).all (fun c => c == '8' || c == '9') &&
    (s.drop 3).all isDigitChar

/-- `isValidBarcode` from src/utils/validators.ts: reject the empty string,
trim, reject an empty trimmed value, then test the five barcode patterns. -/
def isValidBarcode (barcode : String) : Bool :=
  if barcode == "" then false
  else
    let cleanBarcode := jsTrimList barcode.data
    if cleanBarcode.length == 0 then false
    else
      matchesEAN13 cleanBarcode || matchesEAN8 cleanBarcode ||
      matchesUPC cleanBarcode || matchesISBN10 cleanBarcode ||
      matchesISBN13 cleanBarcode

/-- `generateOpVal` from src/utils/validators.ts: the reporting-side dedup
token is the order id, the line-item id and `Date.now()` joined by dashes.
The machine clock is the explicit `nowMs` parameter. -/
def generateOpVal (orderId lineItemId : String) (nowMs : Nat) : String :=
  orderId ++ "-" ++ lineItemId ++ "-" ++ toString nowMs

/-- `convertGender` from src/utils/validators.ts. -/
def convertGender (gender : Option String) : Option String :=
  match gender with
  | none => none
  | some g =>
    if g == "" then none
    else
      let normalized := g.toUpper
      if normalized == "M" || normalized == "MALE" || normalized == "1" then some "M"
      else if normalized == "F" || normalized == "W" || normalized == "FEMALE" ||
          normalized == "2" then some "W"
      else none

/-- Numeric value of a decimal digit character. -/
def digitVal (c : Char) : Nat := c.toNat - '0'.toNat

/-- Value of four decimal digit characters read as a year. -/
def fourDigitVal (c1 c2 c3 c4 : Char) : Nat :=
  1000 * digitVal c1 + 100 * digitVal c2 + 10 * digitVal c3 + digitVal c4

/-- Days in a month of the proleptic Gregorian calendar, as used by the
ECMAScript date parser to reject out-of-range days. -/
def daysInMonth (year month : Nat) : Nat :=
  if month == 2 then
    if year % 4 == 0 && (year % 100 != 0 || year % 400 == 0) then 29 else 28
  else if month == 4 || month == 6 || month == 9 || month == 11 then 30
  else 31

/-- Model of the JavaScript `new Date(s)` / `getFullYear()` pair on strings:
returns the parsed full year, or `none` when the string does not parse as a
date (`isNaN(date.getTime())`).  Restricted to the ISO 8601 date-only forms
YYYY, YYYY-MM and YYYY-MM-DD, the formats the ECMAScript standard mandates;
engine-specific fallback formats are treated as unparsable. -/
def jsDateYear (s : String) : Option Nat :=
  match s.data with
  | [y1, y2, y3, y4] =>
    if isDigitChar y1 && isDigitChar y2 && isDigitChar y3 && isDigitChar y4 then
      some (fourDigitVal y1 y2 y3 y4)
    else none
  | [y1, y2, y3, y4, '-', m1, m2] =>
    if isDigitChar y1 && isDigitChar y2 && isDigitChar y3 && isDigitChar y4 &&
        isDigitChar m1 && isDigitChar m2 then
      let month := 10 * digitVal m1 + digitVal m2
      if 1 ≤ month && month ≤ 12 then some (fourDigitVal y1 y2 y3 y4) else none
    else none
  | [y1, y2, y3, y4, '-', m1, m2, '-', d1, d2] =>
    if isDigitChar y1 && isDigitChar y2 && isDigitChar y3 && isDigitChar y4 &&
        isDigitChar m1 && isDigitChar m2 && isDigitChar d1 && isDigitChar d2 then
      let year := fourDigitVal y1 y2 y3 y4
      let month := 10 * digitVal m1 + digitVal m2
      let day := 10 * digitVal d1 + digitVal d2
      if 1 ≤ month && month ≤ 12 && 1 ≤ day && day ≤ daysInMonth year month then
        some year
      else none
    else none
  | _ => none

/-- Leftmost match of the regex `[0-9]{4}`: the first run of four
consecutive decimal digits in the string, read as a number. -/
def firstFourDigitRun : List Char → Option Nat
  | c1 :: c2 :: c3 :: c4 :: rest =>
    if isDigitChar c1 && isDigitChar c2 && isDigitChar c3 && isDigitChar c4 then
      some (fourDigitVal c1 c2 c3 c4)
    else firstFourDigitRun (c2 :: c3 :: c4 :: rest)
  | _ => none

/-- `extractBirthYear` from src/utils/validators.ts.  `currentYear` stands
for the ambient `new Date().getFullYear()`.  First try to parse the whole
string as a date and, when that succeeds, return `getFullYear().toString()`
as is; otherwise extract the first 4-digit run and keep it only when it
lies in [1900, currentYear]. -/
def extractBirthYear (currentYear : Nat) (birthDate : String) : Option String :=
  if birthDate == "" then none
  else
    match jsDateYear birthDate with
    | some y => some (toString y)
    | none =>
      match firstFourDigitRun birthDate.data with
      | some year =>
        if 1900 ≤ year && year ≤ currentYear then some (toString year) else none
      | none => none

/-! ## Catalog cache (src/services/sync.service.ts) -/

/-- Modelled from the spec: an album product / CatalogEntry (§3 of the
spec; src/models/product.model.ts is not in the source snapshot; fields
follow the Joi schema in the validators). -/
structure AlbumProduct where
  productId : Nat
  variantId : Nat
  title : String
  variantTitle : String
  vendor : String
  sku : String
  barcode : String
  price : String
  deriving Repr, DecidableEq

/-- The mutable fields of SyncService: the variantId-keyed album-product
cache (a JavaScript `Map`, modelled as an association list) and the
`lastCacheUpdate` timestamp in epoch milliseconds (initially
`new Date(0)`). -/
structure SyncState where
  albumProductsCache : List (Nat × AlbumProduct)
  lastCacheUpdate : Nat
  deriving Repr, DecidableEq

def CACHE_TTL : Nat := 60 * 60 * 1000

/-- JavaScript `Map.prototype.set`: replace the value under an existing
key, else append the new binding. -/
def mapSet (m : List (Nat × AlbumProduct)) (k : Nat) (v : AlbumProduct) :
    List (Nat × AlbumProduct) :=
  if m.any (fun p => p.1 == k) then
    m.map (fun p => if p.1 == k then (k, v) else p)
  else m ++ [(k, v)]

/-- The cache rebuild loop of `syncAlbumProducts`: clear, then `set` each
fetched product under its variantId. -/
def rebuildCache (products : List AlbumProduct) : List (Nat × AlbumProduct) :=
  products.foldl (fun m p => mapSet m p.variantId p) []

/-- `SyncService.syncAlbumProducts`: await the product fetch (the argument
oracle stands for `shopifyService.getAlbumProducts`); on success clear and
rebuild the cache and stamp `lastCacheUpdate`; on a fetch error log and
rethrow, leaving the state untouched (the clear happens only after the
fetch has resolved). -/
def syncAlbumProducts (fetchResult : Except String (List AlbumProduct))
    (nowMs : Nat) (st : SyncState) : Except String Unit × SyncState :=
  match fetchResult with
  | .error e => (.error e, st)
  | .ok products => (.ok (), ⟨rebuildCache products, nowMs⟩)

/-- `SyncService.ensureProductsCached`: refresh when the cache age exceeds
`CACHE_TTL` or the cache is empty.  The returned Bool records whether the
product fetch was triggered.  (JavaScript computes a signed `cacheAge`;
Nat subtraction truncates a negative age to 0, which falls in the same
not-greater-than-TTL branch.) -/
def ensureProductsCached (fetchResult : Except String (List AlbumProduct))
    (nowMs : Nat) (st : SyncState) :
    (Except String Unit × SyncState) × Bool :=
  let cacheAge := nowMs - st.lastCacheUpdate
  if decide (CACHE_TTL < cacheAge) || st.albumProductsCache.length == 0 then
    (syncAlbumProducts fetchResult nowMs st, true)
  else ((.ok (), st), false)

/-! ## HanteoService (src/services/hanteo.service.ts)

The axios instance is modelled by a server oracle answering the i-th token
POST and the i-th sales POST; the machine clock is the explicit `nowMs`
parameter.  Thrown errors become `SdError` values; the distinction between
an axios error (which carries `response.status` / `response.data`) and a
`HanteoError` thrown by the service itself (which carries neither) matters
for the token-expiry catch and is kept. -/

/-- A network call made by the service: a token-endpoint POST or a
sales-data POST. -/
inductive NetEvent where
  | authCall : NetEvent
  | submitPost : NetEvent
  deriving Repr, DecidableEq

/-- Server behaviour for one token-endpoint POST. -/
inductive AuthOutcome where
  | transportError : AuthOutcome
  | response (r : HanteoTokenResponse) : AuthOutcome
  deriving Repr, DecidableEq

/-- Server behaviour for one sales-data POST: an HTTP 2xx body, a non-2xx
status with body (axios rejects with `error.response` set), or a transport
failure (no response at all). -/
inductive SubmitOutcome where
  | ok (body : HanteoSalesResponse) : SubmitOutcome
  | httpError (status : Nat) (body : HanteoSalesResponse) : SubmitOutcome
  | transportError : SubmitOutcome
  deriving Repr, DecidableEq

/-- Errors surfaced by `sendSalesData`.  `http` is an axios error carrying
`response.status` and `response.data`; `noResponse` is an axios error with
no response; `hanteo` is a `HanteoError` thrown by the service itself
(message and optional Hanteo code, no `response` field); `outOfFuel` marks
exhaustion of the recursion fuel of the model. -/
inductive SdError where
  | http (status : Nat) (body : HanteoSalesResponse) : SdError
  | noResponse : SdError
  | hanteo (message : String) (code : Option Nat) : SdError
  | outOfFuel : SdError
  deriving Repr, DecidableEq

/-- The mock reporting API: responses indexed by how many calls of each
kind have been made. -/
structure Server where
  auth : Nat → AuthOutcome
  post : Nat → SubmitOutcome

/-- The mutable service state: the stored token plus the indices of the
next token POST and the next sales POST (pointers into the server
oracle). -/
structure SvcState where
  token : Option HanteoToken
  authIdx : Nat
  postIdx : Nat
  deriving Repr, DecidableEq

/-- `HanteoService.isTokenValid`: a token is valid when the current time
plus the 5-minute expiry buffer is still before `expiresAt`. -/
def isTokenValid (nowMs : Nat) (token : Option HanteoToken) : Bool :=
  match token with
  | none => false
  | some t => decide (nowMs + 5 * 60 * 1000 < t.expiresAt)

/-- `HanteoService.authenticate`: POST the token endpoint; on a non-success
code or missing resultData throw (the inner AuthenticationError is caught
and rethrown as `HanteoError "Authentication failed"`, as is a transport
error); on success store the token with
`expiresAt = now + expires_in * 1000`. -/
def authenticate (srv : Server) (nowMs : Nat) (st : SvcState) :
    Except SdError Unit × SvcState × List NetEvent :=
  match srv.auth st.authIdx with
  | .transportError =>
    (.error (.hanteo "Authentication failed" none),
      ⟨st.token, st.authIdx + 1, st.postIdx⟩, [.authCall])
  | .response r =>
    match r.resultData with
    | none =>
      (.error (.hanteo "Authentication failed" none),
        ⟨st.token, st.authIdx + 1, st.postIdx⟩, [.authCall])
    | some d =>
      if r.code == HANTEO_SUCCESS then
        (.ok (),
          ⟨some ⟨d.access_token, d.token_type, nowMs + d.expires_in * 1000⟩,
            st.authIdx + 1, st.postIdx⟩, [.authCall])
      else
        (.error (.hanteo "Authentication failed" none),
          ⟨st.token, st.authIdx + 1, st.postIdx⟩, [.authCall])

/-- How one sales POST resolves or rejects at the axios layer. -/
def submitOutcomeToExcept : SubmitOutcome → Except SdError HanteoSalesResponse
  | .ok body => .ok body
  | .httpError status body => .error (.http status body)
  | .transportError => .error .noResponse

/-- `retryWithBackoff` (src/utils/error-handler.ts) applied to the sales
POST: attempts 0..maxRetries, retrying on any error, returning the first
success or the last error.  `attemptsLeft` counts the retries still
allowed; the delays between attempts are irrelevant to the claims and are
not recorded. -/
def retryPostGo (srv : Server) :
    Nat → Nat → Except SdError HanteoSalesResponse × Nat × List NetEvent
  | postIdx, 0 => (submitOutcomeToExcept (srv.post postIdx), postIdx + 1, [.submitPost])
  | postIdx, attemptsLeft + 1 =>
    match submitOutcomeToExcept (srv.post postIdx) with
    | .ok body => (.ok body, postIdx + 1, [.submitPost])
    | .error _ =>
      let rec_ := retryPostGo srv (postIdx + 1) attemptsLeft
      (rec_.1, rec_.2.1, .submitPost :: rec_.2.2)

/-- The sales POST wrapped in `retryWithBackoff` with
`maxRetries = hanteoConfig.retryAttempts`. -/
def retryPost (srv : Server) (postIdx : Nat) :
    Except SdError HanteoSalesResponse × Nat × List NetEvent :=
  retryPostGo srv postIdx retryAttempts

/-- Result inspection of `sendSalesData` after a resolved POST (lines that
throw on partial success with failData present, throw on any code that is
neither success nor partial success, and otherwise return the body). -/
def handleSalesResult (result : HanteoSalesResponse) :
    Except SdError HanteoSalesResponse :=
  if result.code == HANTEO_PARTIAL_SUCCESS &&
      (result.resultData.bind ResultData.failData).isSome then
    .error (.hanteo "Partial success - some records failed" (some result.code))
  else if result.code != HANTEO_SUCCESS && result.code != HANTEO_PARTIAL_SUCCESS then
    .error (.hanteo (if result.message == "" then "Sales data submission failed"
                     else result.message) (some result.code))
  else .ok result

/-- The catch condition of `sendSalesData`:
`error.response?.status === 401 || error.response?.data?.code === 821 ||
error.response?.data?.code === 822`.  Only an axios error carries a
`response`; a `HanteoError` thrown by the service itself does not. -/
def isTokenExpiryError : SdError → Bool
  | .http status body =>
    status == 401 || body.code == HANTEO_INVALID_TOKEN ||
    body.code == HANTEO_TOKEN_EXPIRED
  | _ => false

/-- The zero-count success response returned for an empty transaction
list. -/
def emptyListResponse : HanteoSalesResponse :=
  ⟨HANTEO_SUCCESS, "No data to send", some ⟨0, 0, 0, none⟩⟩

/-- `HanteoService.sendSalesData`.  Order of operations as in the source:
`ensureAuthenticated` first, then the empty-list check, then the batch-size
check, then the POST under `retryWithBackoff` and the result inspection;
the catch invalidates the token, re-authenticates and re-enters the whole
function on a token-expiry error (`return this.sendSalesData(transactions)`
in the source, so the recursion carries no attempt counter — the `fuel`
argument exists only to make the model total, and running out of fuel
returns `SdError.outOfFuel`). -/
def sendSalesData (srv : Server) (nowMs : Nat) :
    Nat → SvcState → List SalesTransaction →
    Except SdError HanteoSalesResponse × SvcState × List NetEvent
  | 0, st, _ => (.error .outOfFuel, st, [])
  | fuel + 1, st, transactions =>
    let ensure :=
      if isTokenValid nowMs st.token then (Except.ok (), st, ([] : List NetEvent))
      else authenticate srv nowMs st
    match ensure.1 with
    | .error e => (.error e, ensure.2.1, ensure.2.2)
    | .ok _ =>
      let st1 := ensure.2.1
      let evs1 := ensure.2.2
      if transactions.length == 0 then (.ok emptyListResponse, st1, evs1)
      else if decide (maxBatchSize < transactions.length) then
        (.error (.hanteo "Batch size exceeds maximum" (some HANTEO_INVALID_DATA)),
          st1, evs1)
      else
        let posted := retryPost srv st1.postIdx
        let st2 : SvcState := ⟨st1.token, st1.authIdx, posted.2.1⟩
        let evs2 := posted.2.2
        let res2 :=
          match posted.1 with
          | .ok body => handleSalesResult body
          | .error e => .error e
        match res2 with
        | .ok body => (.ok body, st2, evs1 ++ evs2)
        | .error e =>
          if isTokenExpiryError e then
            let st3 : SvcState := ⟨none, st2.authIdx, st2.postIdx⟩
            let reauth := authenticate srv nowMs st3
            match reauth.1 with
            | .error e2 => (.error e2, reauth.2.1, evs1 ++ evs2 ++ reauth.2.2)
            | .ok _ =>
              let retried := sendSalesData srv nowMs fuel reauth.2.1 transactions
              (retried.1, retried.2.1, evs1 ++ evs2 ++ reauth.2.2 ++ retried.2.2)
          else (.error e, st2, evs1 ++ evs2)

/-! ## Wire-format conversion (HanteoService.convertToHanteoFormat) -/

/-- Modelled from the spec: one wire record of the bulk-ingest contract
(§6 of the spec; src/models/sales.model.ts is not in the source
snapshot). -/
structure HanteoSalesData where
  familyCode : String
  branchCode : String
  barcode : String
  albumName : String
  salesVolume : Nat
  nation : Option String
  addrTop : Option String
  swsSex : Option String
  swsBirth : Option String
  spCode : Option String
  realTime : Nat
  opVal : String
  deriving Repr, DecidableEq

/-- `HanteoService.convertToHanteoFormat`: build the wire record from a
transaction.  `realTime` is the transaction time in epoch seconds
(`Math.floor(ms / 1000)`); `opVal` is the dedup token generated at
conversion time (`generateOpVal` calls `Date.now()`, here the `nowMs`
parameter). -/
def convertToHanteoFormat (familyCode branchCode : String)
    (tx : SalesTransaction) (nowMs : Nat) : HanteoSalesData :=
  { familyCode := familyCode
    branchCode := branchCode
    barcode := tx.barcode
    albumName := tx.albumName
    salesVolume := tx.quantity
    nation := tx.shippingInfo.map ShippingInfo.countryCode
    addrTop := tx.shippingInfo.bind ShippingInfo.city
    swsSex := convertGender (tx.customerInfo.bind CustomerInfo.gender)
    swsBirth := tx.customerInfo.bind CustomerInfo.birthYear
    spCode := tx.customerInfo.map CustomerInfo.id
    realTime := tx.transactionTime / 1000
    opVal := generateOpVal tx.orderId tx.lineItemId nowMs }

/-! ## Batched submission (HanteoService.sendSalesDataInBatches) -/

/-- The failed-transaction tracking loop of `sendSalesDataInBatches`: for
each `(opVal, errorCode)` entry of the response failure map, find the
transaction of the chunk whose freshly regenerated dedup token
(`generateOpVal(tx.orderId, tx.lineItemId)`, which appends the current
`Date.now()`, here `matchNowMs`) equals the key, and record it with the
error code when found. -/
def trackFailedTransactions (batch : List SalesTransaction)
    (failData : List (String × String)) (matchNowMs : Nat) :
    List (SalesTransaction × String) :=
  failData.filterMap fun entry =>
    (batch.find? fun tx =>
        generateOpVal tx.orderId tx.lineItemId matchNowMs == entry.1).map
      fun tx => (tx, entry.2)

/-- The aggregate result of `sendSalesDataInBatches`. -/
structure BatchAgg where
  totalSent : Nat
  totalSuccess : Nat
  totalFailed : Nat
  batchResults : List HanteoSalesResponse
  failedTransactions : List (SalesTransaction × String)
  deriving Repr, DecidableEq

/-- Observable steps of the chunk loop: submitting one chunk, or sleeping
the configured inter-chunk delay. -/
inductive BatchEvent where
  | send (chunk : List SalesTransaction) : BatchEvent
  | delay (ms : Nat) : BatchEvent
  deriving Repr, DecidableEq

/-- The chunk decomposition performed by the loop
`for (i = 0; i < n; i += batchSize) slice(i, i + batchSize)`.  The fuel
argument mirrors the loop counter bound; `chunkList` supplies it as the
input length, which suffices for any positive chunk size (for
`batchSize = 0` the source loop never terminates, and no claim concerns
that case). -/
def chunksGo (c : Nat) : Nat → List SalesTransaction → List (List SalesTransaction)
  | 0, _ => []
  | _, [] => []
  | fuel + 1, l => l.take c :: chunksGo c fuel (l.drop c)

/-- Contiguous chunks of size `c` (last one possibly shorter). -/
def chunkList (c : Nat) (l : List SalesTransaction) : List (List SalesTransaction) :=
  chunksGo c l.length l

/-- The body of the chunk loop of `sendSalesDataInBatches`, one chunk at a
time.  `send` stands for `this.sendSalesData` on the chunk with the given
index (an `Except.error` is a thrown exception carrying its message);
`matchNowMs` is the `Date.now()` seen by the failed-transaction matching;
`delayMs` is `delayBetweenBatches`.  On success the response counts are
accumulated when `resultData` is present and the failure map is matched;
the inter-chunk delay runs only when more chunks follow.  On an exception
every transaction of the chunk is recorded as failed with the error
message, the chunk size is added to `totalFailed`, and the loop
continues. -/
def runBatches (send : Nat → List SalesTransaction → Except String HanteoSalesResponse)
    (matchNowMs delayMs : Nat) :
    Nat → List (List SalesTransaction) → BatchAgg × List BatchEvent
  | _, [] => (⟨0, 0, 0, [], []⟩, [])
  | idx, batch :: rest =>
    match send idx batch with
    | .ok response =>
      let sent := match response.resultData with
        | some rd => rd.requestCount
        | none => 0
      let succ := match response.resultData with
        | some rd => rd.successCount
        | none => 0
      let failed := match response.resultData with
        | some rd => rd.failCount
        | none => 0
      let fails := match response.resultData with
        | some rd =>
          match rd.failData with
          | some fd => trackFailedTransactions batch fd matchNowMs
          | none => []
        | none => []
      let tail := runBatches send matchNowMs delayMs (idx + 1) rest
      (⟨sent + tail.1.totalSent, succ + tail.1.totalSuccess,
        failed + tail.1.totalFailed, response :: tail.1.batchResults,
        fails ++ tail.1.failedTransactions⟩,
       .send batch :: ((if rest.isEmpty then [] else [.delay delayMs]) ++ tail.2))
    | .error msg =>
      let tail := runBatches send matchNowMs delayMs (idx + 1) rest
      (⟨tail.1.totalSent, tail.1.totalSuccess,
        batch.length + tail.1.totalFailed, tail.1.batchResults,
        batch.map (fun tx => (tx, msg)) ++ tail.1.failedTransactions⟩,
       .send batch :: tail.2)

/-- `HanteoService.sendSalesDataInBatches`: split into chunks of
`batchSize` and run the chunk loop. -/
def sendSalesDataInBatches
    (send : Nat → List SalesTransaction → Except String HanteoSalesResponse)
    (matchNowMs batchSize delayMs : Nat) (transactions : List SalesTransaction) :
    BatchAgg × List BatchEvent :=
  runBatches send matchNowMs delayMs 0 (chunkList batchSize transactions)

/-- What one chunk contributes to `totalFailed`: the response `failCount`
on success (0 without `resultData`), the whole chunk size on an
exception. -/
def chunkFailCount
    (send : Nat → List SalesTransaction → Except String HanteoSalesResponse)
    (idx : Nat) (batch : List SalesTransaction) : Nat :=
  match send idx batch with
  | .ok r => match r.resultData with
             | some rd => rd.failCount
             | none => 0
  | .error _ => batch.length

/-- What one chunk contributes to `failedTransactions`. -/
def chunkFailList
    (send : Nat → List SalesTransaction → Except String HanteoSalesResponse)
    (matchNowMs : Nat) (idx : Nat) (batch : List SalesTransaction) :
    List (SalesTransaction × String) :=
  match send idx batch with
  | .ok r => match r.resultData with
             | some rd => match rd.failData with
                          | some fd => trackFailedTransactions batch fd matchNowMs
                          | none => []
             | none => []
  | .error msg => batch.map (fun tx => (tx, msg))

/-- Whether a batch event is a chunk submission. -/
def isSendEvent : BatchEvent → Bool
  | .send _ => true
  | .delay _ => false

/-! ## Spec-side predicates and concrete fixtures -/

/-- Follows the spec wording (§8): after trimming, the value is a numeric
string of length 8, 12 or 13, or matches a 10-digit ISBN pattern (nine
digits and a digit-or-X check character) or a 13-digit ISBN pattern (978 or
979 followed by ten digits). -/
def BarcodeSpec (clean : List Char) : Prop :=
  (clean.all isDigitChar = true ∧
    (clean.length = 8 ∨ clean.length = 12 ∨ clean.length = 13)) ∨
  (clean.length = 10 ∧ (clean.take 9).all isDigitChar = true ∧
    (clean.drop 9).all (fun c => isDigitChar c || c == 'X') = true) ∨
  (clean.length = 13 ∧
    (clean.take 3 = ['9', '7', '8'] ∨ clean.take 3 = ['9', '7', '9']) ∧
    clean.all isDigitChar = true)

/-- Number of token-endpoint POSTs in a network trace. -/
def countAuths (evs : List NetEvent) : Nat :=
  evs.countP (fun e => e == NetEvent.authCall)

/-- Number of sales-data POSTs in a network trace. -/
def countPosts (evs : List NetEvent) : Nat :=
  evs.countP (fun e => e == NetEvent.submitPost)

/-- A sample transaction. -/
def tx0 : SalesTransaction :=
  { orderId := "1001", orderName := "#1001", fulfillmentId := none
    lineItemId := "22", productId := "7", variantId := "9"
    barcode := "8809633189505", albumName := "Test Album", quantity := 1
    customerInfo := none, shippingInfo := none
    transactionTime := 1700000000000, trackingNumber := none
    status := "pending" }

/-- A second sample transaction. -/
def tx1 : SalesTransaction :=
  { tx0 with orderId := "1002", lineItemId := "23" }

/-- A third sample transaction. -/
def tx2 : SalesTransaction :=
  { tx0 with orderId := "1003", lineItemId := "24" }

/-- A sample album product. -/
def prod0 : AlbumProduct :=
  ⟨11, 22, "Title", "CD", "Vendor", "SKU-1", "8809633189505", "19.99"⟩

/-- A token-endpoint response that succeeds with a one-hour token. -/
def authOkOutcome : AuthOutcome :=
  .response ⟨HANTEO_SUCCESS, "Success", some ⟨"token", "bearer", 3600⟩⟩

/-- The token stored by a successful `authenticate` at clock 0 with the
one-hour lifetime of `authOkOutcome`. -/
def tokenAt0 : HanteoToken := ⟨"token", "bearer", 3600000⟩

/-- A response body delivered with an HTTP 401 status. -/
def unauthorizedBody : HanteoSalesResponse := ⟨0, "Unauthorized", none⟩

/-- A reporting API whose token endpoint always succeeds and whose sales
endpoint always rejects with HTTP 401 (for instance a revoked client
key). -/
def unauthorizedServer : Server :=
  ⟨fun _ => authOkOutcome, fun _ => .httpError 401 unauthorizedBody⟩

/-- A reporting API whose token endpoint always succeeds; the sales
endpoint is never reached in the scenarios using it. -/
def okAuthServer : Server :=
  ⟨fun _ => authOkOutcome, fun _ => .transportError⟩

/-- A fully successful two-record batch response. -/
def okResp : HanteoSalesResponse := ⟨HANTEO_SUCCESS, "Success", some ⟨2, 2, 0, none⟩⟩

/-- A partial-success response (code 101) carrying no failure map. -/
def partialNoFailBody : HanteoSalesResponse :=
  ⟨HANTEO_PARTIAL_SUCCESS, "Partial success", some ⟨2, 1, 1, none⟩⟩

/-- A chunk sender whose first chunk throws a network error and whose
later chunks succeed. -/
def sendFail0 : Nat → List SalesTransaction → Except String HanteoSalesResponse :=
  fun i _ => if i == 0 then .error "Network error" else .ok okResp

/-- The network trace produced by one re-authentication cycle of
`sendSalesData` against `unauthorizedServer`, per remaining fuel: four
sales POSTs (the backoff retries) followed by the catch-branch token
POST. -/
def trace401 : Nat → List NetEvent
  | 0 => []
  | f + 1 =>
    [.submitPost, .submitPost, .submitPost, .submitPost, .authCall] ++ trace401 f

/-! ## Theorems -/

/-- Claim C6: for every state of the catalog cache, a product-fetch error
during `syncAlbumProducts` propagates to the caller and leaves the
previously cached snapshot — its entries and its `lastCacheUpdate`
timestamp — exactly as it was; the cache is cleared only after the fetch
has succeeded. -/
theorem syncAlbumProducts_fetch_error_preserves_snapshot
    (e : String) (nowMs : Nat) (st : SyncState) :
    syncAlbumProducts (Except.error e) nowMs st = (Except.error e, st) := rfl

/-- Claim C2 (code bug): the failed-record reconstruction of
`sendSalesDataInBatches` regenerates the dedup token with a fresh
`Date.now()`, so the lookup compares the submission-time token against a
token carrying the matching-time clock.  The record whose dedup token was
generated at clock 1000 is reconstructed when matched at clock 1000, but
lost when matched at clock 1001 — matching on the (orderId, lineItemId)
pair alone, as the claim states, would find it either way. -/
theorem trackFailedTransactions_fresh_timestamp_misses :
    (convertToHanteoFormat "FAM" "BR" tx0 1000).opVal = "1001-22-1000" ∧
    trackFailedTransactions [tx0] [("1001-22-1000", "UC")] 1001 = [] ∧
    trackFailedTransactions [tx0] [("1001-22-1000", "UC")] 1000 = [(tx0, "UC")] := by
  refine ⟨rfl, ?_, ?_⟩ <;> decide

/-- Claim C8 (code bug): the date-parsing path of `extractBirthYear`
returns `getFullYear().toString()` with no range check, so years outside
[1900, current year] (and even non-4-digit strings) are returned: with
current year 2026, the inputs 2030, 1899 and 0001-01-01 yield 2030, 1899
and 1, while the claim (and the repository test expecting undefined for
2030 and 1899) requires no value there. -/
theorem extractBirthYear_date_path_unvalidated :
    extractBirthYear 2026 "2030" = some "2030" ∧
    extractBirthYear 2026 "1899" = some "1899" ∧
    extractBirthYear 2026 "0001-01-01" = some "1" ∧
    ¬ (2030 ≤ 2026) ∧ ¬ (1900 ≤ 1899) := by
  refine ⟨?_, ?_, ?_, by decide, by decide⟩ <;> decide

/-- Claim C3 (counterexample): with no stored token, `sendSalesData` on the
empty transaction list still performs the authentication handshake —
`ensureAuthenticated` runs before the empty-list check — so a network call
does occur even though the zero-count success is returned. -/
theorem sendSalesData_empty_list_performs_auth_call :
    sendSalesData okAuthServer 0 1 ⟨none, 0, 0⟩ [] =
      (.ok emptyListResponse, ⟨some tokenAt0, 1, 0⟩, [.authCall]) ∧
    (sendSalesData okAuthServer 0 1 ⟨none, 0, 0⟩ []).2.2 ≠ [] := by
  refine ⟨rfl, by decide⟩

/-- Every `authenticate` call emits exactly one token-endpoint POST. -/
lemma authenticate_trace (srv : Server) (nowMs : Nat) (st : SvcState) :
    (authenticate srv nowMs st).2.2 = [NetEvent.authCall] := by
  unfold authenticate
  cases haut : srv.auth st.authIdx with
  | transportError => simp [haut]
  | response r =>
    cases hrd : r.resultData with
    | none => simp [haut, hrd]
    | some d => by_cases hc : (r.code == HANTEO_SUCCESS) = true <;> simp [haut, hrd, hc]

/-- Claim C9: a freshness check within the TTL window on a non-empty cache
triggers no product fetch and leaves the state untouched; a check after the
TTL has elapsed, or on an empty cache, runs the refresh before returning
(the returned state is the refreshed one). -/
theorem ensureProductsCached_ttl_gate
    (f : Except String (List AlbumProduct)) (nowMs : Nat) (st : SyncState) :
    (nowMs - st.lastCacheUpdate ≤ CACHE_TTL → st.albumProductsCache ≠ [] →
      ensureProductsCached f nowMs st = ((.ok (), st), false)) ∧
    (CACHE_TTL < nowMs - st.lastCacheUpdate ∨ st.albumProductsCache = [] →
      ensureProductsCached f nowMs st = (syncAlbumProducts f nowMs st, true)) := by
  constructor
  · intro h1 h2
    have hc : (decide (CACHE_TTL < nowMs - st.lastCacheUpdate) ||
        (st.albumProductsCache.length == 0)) = false := by
      simp [Nat.not_lt.mpr h1, List.length_eq_zero, h2]
    simp [ensureProductsCached, hc]
  · intro h
    have hc : (decide (CACHE_TTL < nowMs - st.lastCacheUpdate) ||
        (st.albumProductsCache.length == 0)) = true := by
      rcases h with h | h
      · simp [h]
      · simp [h]
    simp [ensureProductsCached, hc]

/-- Claim C9 witness: a second check 500 ms after a refresh does not fetch;
a check one millisecond past the TTL does. -/
theorem ensureProductsCached_ttl_gate_witness :
    ensureProductsCached (Except.ok [prod0]) 1000 ⟨[(22, prod0)], 500⟩ =
      ((Except.ok (), ⟨[(22, prod0)], 500⟩), false) ∧
    ensureProductsCached (Except.ok [prod0]) 3600001 ⟨[(22, prod0)], 0⟩ =
      (syncAlbumProducts (Except.ok [prod0]) 3600001 ⟨[(22, prod0)], 0⟩, true) :=
  ⟨(ensureProductsCached_ttl_gate _ _ _).1 (by decide) (by decide),
   (ensureProductsCached_ttl_gate _ _ _).2 (Or.inl (by decide))⟩

/-- Claim C3 (amended): an empty transaction list never causes a sales
POST, and with a valid stored token `sendSalesData` returns the zero-count
success with no network call at all; but `ensureAuthenticated` runs before
the empty-list check, so with a missing or expiring token the
authentication handshake is still performed. -/
theorem sendSalesData_empty_list_no_submit
    (srv : Server) (nowMs fuel : Nat) (st : SvcState) :
    countPosts (sendSalesData srv nowMs (fuel + 1) st []).2.2 = 0 ∧
    (isTokenValid nowMs st.token = true →
      sendSalesData srv nowMs (fuel + 1) st [] = (.ok emptyListResponse, st, [])) := by
  by_cases h : isTokenValid nowMs st.token = true
  · constructor
    · simp [sendSalesData, h, countPosts]
    · intro _
      simp [sendSalesData, h]
  · have h' : isTokenValid nowMs st.token = false := by
      simpa using h
    constructor
    · simp only [sendSalesData, h', Bool.false_eq_true, if_false]
      cases he : (authenticate srv nowMs st).1 with
      | error e =>
        simp only [he]
        simp [authenticate_trace, countPosts]
      | ok u =>
        simp only [he]
        simp [authenticate_trace, countPosts]
    · intro hv
      rw [h'] at hv
      cases hv

/-- Claim C3 (amended) witness: with a valid token and the empty list the
model performs no POST of either kind and returns the zero-count
success. -/
theorem sendSalesData_empty_list_no_submit_witness :
    countPosts (sendSalesData okAuthServer 0 1 ⟨some tokenAt0, 0, 0⟩ []).2.2 = 0 ∧
    sendSalesData okAuthServer 0 1 ⟨some tokenAt0, 0, 0⟩ [] =
      (.ok emptyListResponse, ⟨some tokenAt0, 0, 0⟩, []) :=
  ⟨(sendSalesData_empty_list_no_submit _ _ _ _).1,
   (sendSalesData_empty_list_no_submit _ _ _ _).2 (by decide)⟩

/-- The backoff wrapper returns immediately when the first POST
succeeds. -/
lemma retryPost_first_ok (srv : Server) (p : Nat) (body : HanteoSalesResponse)
    (h : srv.post p = .ok body) :
    retryPost srv p = (.ok body, p + 1, [.submitPost]) := by
  unfold retryPost
  rw [show retryAttempts = 2 + 1 from rfl]
  unfold retryPostGo
  rw [h]
  rfl

/-- Claim C10: a submission response with the partial-success code 101 but
no per-record failure map is returned to the caller as a normal
success-path result and raises no partial-success error. -/
theorem sendSalesData_partial_success_without_failData
    (au : Nat → AuthOutcome) (body : HanteoSalesResponse) (st : SvcState)
    (nowMs fuel : Nat) (txs : List SalesTransaction)
    (hcode : body.code = HANTEO_PARTIAL_SUCCESS)
    (hfd : body.resultData.bind ResultData.failData = none)
    (htok : isTokenValid nowMs st.token = true)
    (hne : txs ≠ []) (hlen : txs.length ≤ maxBatchSize) :
    sendSalesData ⟨au, fun _ => .ok body⟩ nowMs (fuel + 1) st txs =
      (.ok body, ⟨st.token, st.authIdx, st.postIdx + 1⟩, [.submitPost]) := by
  have h0 : (txs.length == 0) = false := by
    simp [List.length_eq_zero, hne]
  have h1 : decide (maxBatchSize < txs.length) = false := by
    simp [Nat.not_lt.mpr hlen]
  have hpost : retryPost ⟨au, fun _ => .ok body⟩ st.postIdx =
      (.ok body, st.postIdx + 1, [.submitPost]) :=
    retryPost_first_ok _ _ _ rfl
  have hh : handleSalesResult body = .ok body := by
    unfold handleSalesResult
    rw [hcode]
    simp [hfd, HANTEO_PARTIAL_SUCCESS, HANTEO_SUCCESS]
  simp [sendSalesData, htok, h0, h1, hpost, hh]

/-- Claim C10 witness: a concrete code-101 response without failData is
returned as is. -/
theorem sendSalesData_partial_success_without_failData_witness :
    sendSalesData ⟨fun _ => authOkOutcome, fun _ => .ok partialNoFailBody⟩ 0 1
        ⟨some tokenAt0, 0, 0⟩ [tx0] =
      (.ok partialNoFailBody, ⟨some tokenAt0, 0, 1⟩, [.submitPost]) :=
  sendSalesData_partial_success_without_failData _ _ _ _ _ _ rfl rfl (by decide)
    (by decide) (by decide)

/-- Auth and post counts of the repeated-cycle trace. -/
lemma trace401_counts (f : Nat) :
    countAuths (trace401 f) = f ∧ countPosts (trace401 f) = 4 * f := by
  induction f with
  | zero => constructor <;> rfl
  | succ n ih =>
    unfold trace401 countAuths countPosts
    rw [List.countP_append, List.countP_append]
    unfold countAuths countPosts at ih
    have h1 : List.countP (fun e => e == NetEvent.authCall)
        [NetEvent.submitPost, .submitPost, .submitPost, .submitPost, .authCall] = 1 := by
      decide
    have h2 : List.countP (fun e => e == NetEvent.submitPost)
        [NetEvent.submitPost, .submitPost, .submitPost, .submitPost, .authCall] = 4 := by
      decide
    rw [h1, h2, ih.1, ih.2]
    omega

/-- Against `unauthorizedServer` the four backoff attempts all fail with
HTTP 401 and the last error is rethrown. -/
lemma retryPost_always401 (p : Nat) :
    retryPost unauthorizedServer p =
      (.error (.http 401 unauthorizedBody), p + 4,
        [.submitPost, .submitPost, .submitPost, .submitPost]) := rfl

/-- Starting from the freshly stored token, every level of
`sendSalesData` against `unauthorizedServer` performs the four backoff
POSTs, catches the 401, re-authenticates and re-enters itself, consuming
one unit of fuel per cycle and never surfacing the error. -/
lemma sendSalesData_always401_validToken (fuel : Nat) :
    ∀ a p, sendSalesData unauthorizedServer 0 fuel ⟨some tokenAt0, a, p⟩ [tx0] =
      (.error .outOfFuel, ⟨some tokenAt0, a + fuel, p + 4 * fuel⟩, trace401 fuel) := by
  induction fuel with
  | zero =>
    intro a p
    simp [sendSalesData, trace401]
  | succ f ih =>
    intro a p
    have hstep : sendSalesData unauthorizedServer 0 (f + 1) ⟨some tokenAt0, a, p⟩ [tx0] =
        ((sendSalesData unauthorizedServer 0 f ⟨some tokenAt0, a + 1, p + 4⟩ [tx0]).1,
         (sendSalesData unauthorizedServer 0 f ⟨some tokenAt0, a + 1, p + 4⟩ [tx0]).2.1,
         [.submitPost, .submitPost, .submitPost, .submitPost, .authCall] ++
           (sendSalesData unauthorizedServer 0 f ⟨some tokenAt0, a + 1, p + 4⟩ [tx0]).2.2) := rfl
    rw [hstep, ih (a + 1) (p + 4)]
    simp only [trace401, SvcState.mk.injEq, Prod.mk.injEq, List.cons_append,
      List.nil_append]
    refine ⟨by trivial, ⟨by trivial, by omega, by omega⟩, by trivial⟩

/-- Claim C1 (code bug): against a reporting API that repeatedly rejects
the submission as unauthorized while authentication keeps succeeding,
`sendSalesData` re-authenticates and re-enters itself once per fuel unit —
for every fuel bound it performs `fuel + 2` authentications and
`4 * (fuel + 1)` sales POSTs and still has not surfaced the error — so the
retry is not bounded by one cycle as the claim (and the source comment
"Retry once after re-authentication") states. -/
theorem sendSalesData_always401_unbounded_retry (fuel : Nat) :
    (sendSalesData unauthorizedServer 0 (fuel + 1) ⟨none, 0, 0⟩ [tx0]).1 =
        .error .outOfFuel ∧
    countAuths (sendSalesData unauthorizedServer 0 (fuel + 1) ⟨none, 0, 0⟩ [tx0]).2.2 =
        fuel + 2 ∧
    countPosts (sendSalesData unauthorizedServer 0 (fuel + 1) ⟨none, 0, 0⟩ [tx0]).2.2 =
        4 * (fuel + 1) := by
  have hfirst : sendSalesData unauthorizedServer 0 (fuel + 1) ⟨none, 0, 0⟩ [tx0] =
      ((sendSalesData unauthorizedServer 0 fuel ⟨some tokenAt0, 2, 4⟩ [tx0]).1,
       (sendSalesData unauthorizedServer 0 fuel ⟨some tokenAt0, 2, 4⟩ [tx0]).2.1,
       [.authCall, .submitPost, .submitPost, .submitPost, .submitPost, .authCall] ++
         (sendSalesData unauthorizedServer 0 fuel ⟨some tokenAt0, 2, 4⟩ [tx0]).2.2) := rfl
  rw [hfirst, sendSalesData_always401_validToken fuel 2 4]
  have ha := (trace401_counts fuel).1
  have hp := (trace401_counts fuel).2
  unfold countAuths at ha
  unfold countPosts at hp
  unfold countAuths countPosts
  refine ⟨rfl, ?_, ?_⟩
  · rw [List.countP_append]
    have hpre : List.countP (fun e => e == NetEvent.authCall)
        [NetEvent.authCall, .submitPost, .submitPost, .submitPost, .submitPost,
          .authCall] = 2 := by decide
    rw [hpre, ha]
    omega
  · rw [List.countP_append]
    have hpre : List.countP (fun e => e == NetEvent.submitPost)
        [NetEvent.authCall, .submitPost, .submitPost, .submitPost, .submitPost,
          .authCall] = 4 := by decide
    rw [hpre, hp]
    omega

/-- Unfolding of the chunk loop on a nonempty list with fuel to spare. -/
lemma chunksGo_succ_cons (c n : Nat) (x : SalesTransaction) (xs : List SalesTransaction) :
    chunksGo c (n + 1) (x :: xs) =
      (x :: xs).take c :: chunksGo c n ((x :: xs).drop c) := rfl

/-- Any fuel at least the list length computes the same chunks. -/
lemma chunksGo_le (c : Nat) (hc : 0 < c) :
    ∀ fuel m (l : List SalesTransaction), l.length ≤ m → m ≤ fuel →
      chunksGo c m l = chunksGo c l.length l := by
  intro fuel
  induction fuel with
  | zero =>
    intro m l h1 h2
    have hm : m = 0 := Nat.le_zero.mp h2
    subst hm
    have : l = [] := List.length_eq_zero.mp (Nat.le_zero.mp h1)
    subst this
    rfl
  | succ f ih =>
    intro m l h1 h2
    cases m with
    | zero =>
      have : l = [] := List.length_eq_zero.mp (Nat.le_zero.mp h1)
      subst this
      rfl
    | succ k =>
      cases l with
      | nil => rfl
      | cons x xs =>
        have hlen : (x :: xs).length = xs.length + 1 := rfl
        rw [hlen, chunksGo_succ_cons, chunksGo_succ_cons]
        have hdl : ((x :: xs).drop c).length = xs.length + 1 - c := by
          simp [List.length_drop]
        have e1 : chunksGo c k ((x :: xs).drop c) =
            chunksGo c ((x :: xs).drop c).length ((x :: xs).drop c) := by
          refine ih k _ ?_ (by omega)
          rw [hdl]
          have := Nat.le_of_succ_le_succ h1
          omega
        have e2 : chunksGo c xs.length ((x :: xs).drop c) =
            chunksGo c ((x :: xs).drop c).length ((x :: xs).drop c) := by
          refine ih xs.length _ ?_ ?_
          · rw [hdl]; omega
          · have := Nat.le_of_succ_le_succ h1
            omega
        rw [e1, e2]

/-- The characteristic recursion of `chunkList` on a nonempty list. -/
lemma chunkList_cons (c : Nat) (hc : 0 < c) (x : SalesTransaction)
    (xs : List SalesTransaction) :
    chunkList c (x :: xs) =
      (x :: xs).take c :: chunkList c ((x :: xs).drop c) := by
  unfold chunkList
  have hlen : (x :: xs).length = xs.length + 1 := rfl
  rw [hlen, chunksGo_succ_cons]
  congr 1
  refine chunksGo_le c hc xs.length xs.length _ ?_ le_rfl
  simp [List.length_drop]
  omega

/-- Chunking the empty list gives no chunks. -/
lemma chunkList_nil (c : Nat) : chunkList c [] = [] := rfl

/-- A nonempty list has at least one chunk. -/
lemma chunkList_ne_nil (c : Nat) (hc : 0 < c) (x : SalesTransaction)
    (xs : List SalesTransaction) : chunkList c (x :: xs) ≠ [] := by
  rw [chunkList_cons c hc]
  exact List.cons_ne_nil _ _

/-- The chunks concatenate back to the input list: the decomposition is
contiguous and in order. -/
lemma chunkList_join (c : Nat) (hc : 0 < c) (l : List SalesTransaction) :
    (chunkList c l).flatten = l := by
  suffices h : ∀ n (l : List SalesTransaction), l.length ≤ n →
      (chunkList c l).flatten = l from h l.length l le_rfl
  intro n
  induction n with
  | zero =>
    intro l hl
    have : l = [] := List.length_eq_zero.mp (Nat.le_zero.mp hl)
    subst this
    rfl
  | succ m ih =>
    intro l hl
    cases l with
    | nil => rfl
    | cons x xs =>
      have hl' : xs.length + 1 ≤ m + 1 := hl
      rw [chunkList_cons c hc, List.flatten_cons]
      rw [ih ((x :: xs).drop c) (by simp [List.length_drop]; omega)]
      exact List.take_append_drop c (x :: xs)

/-- There are exactly ceiling(n / c) chunks. -/
lemma chunkList_length (c : Nat) (hc : 0 < c) (l : List SalesTransaction) :
    (chunkList c l).length = (l.length + c - 1) / c := by
  suffices h : ∀ n (l : List SalesTransaction), l.length ≤ n →
      (chunkList c l).length = (l.length + c - 1) / c from h l.length l le_rfl
  intro n
  induction n with
  | zero =>
    intro l hl
    have : l = [] := List.length_eq_zero.mp (Nat.le_zero.mp hl)
    subst this
    simp [chunkList_nil, Nat.div_eq_of_lt (by omega : c - 1 < c)]
  | succ m ih =>
    intro l hl
    cases l with
    | nil => simp [chunkList_nil, Nat.div_eq_of_lt (by omega : c - 1 < c)]
    | cons x xs =>
      have hl' : xs.length + 1 ≤ m + 1 := hl
      have hxl : (x :: xs).length = xs.length + 1 := rfl
      rw [chunkList_cons c hc, List.length_cons,
        ih ((x :: xs).drop c) (by simp [List.length_drop]; omega)]
      rw [List.length_drop, hxl]
      have hgoal : (xs.length + 1 + c - 1) / c = xs.length / c + 1 := by
        have h1 : xs.length + 1 + c - 1 = xs.length + c := by omega
        rw [h1, Nat.add_div_right _ hc]
      rw [hgoal]
      congr 1
      rcases Nat.lt_or_ge xs.length c with hlt | hge
      · have h2 : xs.length + 1 - c = 0 := by omega
        rw [h2]
        rw [Nat.div_eq_of_lt (by omega : 0 + c - 1 < c), Nat.div_eq_of_lt hlt]
      · have h2 : xs.length + 1 - c + c - 1 = xs.length := by omega
        rw [h2]

/-- Every chunk except possibly the last has size exactly c. -/
lemma chunkList_dropLast_sizes (c : Nat) (hc : 0 < c) (l : List SalesTransaction) :
    ∀ ch ∈ (chunkList c l).dropLast, ch.length = c := by
  suffices h : ∀ n (l : List SalesTransaction), l.length ≤ n →
      ∀ ch ∈ (chunkList c l).dropLast, ch.length = c from h l.length l le_rfl
  intro n
  induction n with
  | zero =>
    intro l hl ch hch
    have : l = [] := List.length_eq_zero.mp (Nat.le_zero.mp hl)
    subst this
    simp [chunkList_nil] at hch
  | succ m ih =>
    intro l hl ch hch
    cases l with
    | nil => simp [chunkList_nil] at hch
    | cons x xs =>
      have hl' : xs.length + 1 ≤ m + 1 := hl
      rw [chunkList_cons c hc] at hch
      cases hdrop : (x :: xs).drop c with
      | nil =>
        rw [hdrop, chunkList_nil] at hch
        simp at hch
      | cons y ys =>
        rw [hdrop] at hch
        rw [List.dropLast_cons_of_ne_nil (chunkList_ne_nil c hc y ys)] at hch
        have hdl : xs.length + 1 - c = ys.length + 1 := by
          have := congrArg List.length hdrop
          simpa [List.length_drop] using this
        rcases List.mem_cons.mp hch with h | h
        · subst h
          have hcl : c < xs.length + 1 := by omega
          simp [List.length_take]
          omega
        · have hrec := ih ((x :: xs).drop c) (by simp [List.length_drop]; omega)
          rw [hdrop] at hrec
          exact hrec ch h

/-- The last chunk has size `n mod c` (or c when c divides n). -/
lemma chunkList_getLast (c : Nat) (hc : 0 < c) (l : List SalesTransaction)
    (hne : l ≠ []) :
    ∃ last, (chunkList c l).getLast? = some last ∧
      last.length = if l.length % c = 0 then c else l.length % c := by
  suffices h : ∀ n (l : List SalesTransaction), l.length ≤ n → l ≠ [] →
      ∃ last, (chunkList c l).getLast? = some last ∧
        last.length = if l.length % c = 0 then c else l.length % c from
    h l.length l le_rfl hne
  intro n
  induction n with
  | zero =>
    intro l hl hne
    exact absurd (List.length_eq_zero.mp (Nat.le_zero.mp hl)) hne
  | succ m ih =>
    intro l hl hne
    cases l with
    | nil => exact absurd rfl hne
    | cons x xs =>
      have hl' : xs.length + 1 ≤ m + 1 := hl
      have hxl : (x :: xs).length = xs.length + 1 := rfl
      rw [chunkList_cons c hc]
      cases hdrop : (x :: xs).drop c with
      | nil =>
        rw [chunkList_nil]
        refine ⟨(x :: xs).take c, by simp, ?_⟩
        have hlc : xs.length + 1 ≤ c := by
          have := congrArg List.length hdrop
          simp [List.length_drop] at this
          omega
        rw [hxl]
        by_cases hmod : (xs.length + 1) % c = 0
        · have heq : xs.length + 1 = c := by
            rcases Nat.lt_or_ge (xs.length + 1) c with hlt | hge
            · rw [Nat.mod_eq_of_lt hlt] at hmod
              omega
            · omega
          simp [hmod, List.length_take, hxl, heq]
        · have hlt : xs.length + 1 < c := by
            rcases Nat.lt_or_ge (xs.length + 1) c with hlt | hge
            · exact hlt
            · have heq : xs.length + 1 = c := by omega
              rw [heq, Nat.mod_self] at hmod
              exact absurd rfl hmod
          rw [Nat.mod_eq_of_lt hlt]
          simp [hmod, List.length_take, hxl]
          omega
      | cons y ys =>
        have hdl : xs.length + 1 - c = ys.length + 1 := by
          have := congrArg List.length hdrop
          simpa [List.length_drop] using this
        have hrec := ih ((x :: xs).drop c)
          (by simp [List.length_drop]; omega)
          (by rw [hdrop]; exact List.cons_ne_nil _ _)
        rw [hdrop] at hrec
        obtain ⟨last, hlast, hlen⟩ := hrec
        refine ⟨last, ?_, ?_⟩
        · rw [chunkList_cons c hc y ys] at hlast ⊢
          rw [List.getLast?_cons_cons]
          exact hlast
        · have hcl : c ≤ xs.length + 1 := by omega
          have hmm : (y :: ys).length % c = (x :: xs).length % c := by
            have h1 : (y :: ys).length = xs.length + 1 - c := by
              rw [← hdrop, List.length_drop, hxl]
            rw [h1, hxl]
            have heq : xs.length + 1 - c + c = xs.length + 1 := by omega
            calc (xs.length + 1 - c) % c
                = (xs.length + 1 - c + c) % c := (Nat.add_mod_right _ _).symm
              _ = (xs.length + 1) % c := by rw [heq]
          rw [hmm] at hlen
          exact hlen

/-- When every chunk submission succeeds, the event trace is exactly the
chunk submissions in order with one inter-chunk delay between consecutive
chunks. -/
lemma runBatches_trace_all_ok
    (send : Nat → List SalesTransaction → Except String HanteoSalesResponse)
    (now d : Nat) (hok : ∀ i b, ∃ r, send i b = Except.ok r) :
    ∀ idx chunks, (runBatches send now d idx chunks).2 =
      List.intersperse (BatchEvent.delay d) (chunks.map BatchEvent.send) := by
  intro idx chunks
  induction chunks generalizing idx with
  | nil => rfl
  | cons b rest ih =>
    obtain ⟨r, hr⟩ := hok idx b
    have hstep : (runBatches send now d idx (b :: rest)).2 =
        BatchEvent.send b ::
          ((if rest.isEmpty then [] else [BatchEvent.delay d]) ++
            (runBatches send now d (idx + 1) rest).2) := by
      simp only [runBatches, hr]
    rw [hstep, ih (idx + 1)]
    cases rest with
    | nil => simp
    | cons b2 rest2 => simp [List.intersperse_cons_cons]

/-- `totalFailed` aggregates the per-chunk failure counts. -/
lemma runBatches_totalFailed
    (send : Nat → List SalesTransaction → Except String HanteoSalesResponse)
    (now d : Nat) :
    ∀ idx chunks, (runBatches send now d idx chunks).1.totalFailed =
      ((chunks.enumFrom idx).map (fun p => chunkFailCount send p.1 p.2)).sum := by
  intro idx chunks
  induction chunks generalizing idx with
  | nil => rfl
  | cons b rest ih =>
    cases hs : send idx b with
    | ok r =>
      simp only [runBatches, hs, List.enumFrom, List.map_cons, List.sum_cons]
      rw [ih (idx + 1)]
      unfold chunkFailCount
      rw [hs]
    | error msg =>
      simp only [runBatches, hs, List.enumFrom, List.map_cons, List.sum_cons]
      rw [ih (idx + 1)]
      unfold chunkFailCount
      rw [hs]

/-- `failedTransactions` aggregates the per-chunk failure lists in
order. -/
lemma runBatches_failedTransactions
    (send : Nat → List SalesTransaction → Except String HanteoSalesResponse)
    (now d : Nat) :
    ∀ idx chunks, (runBatches send now d idx chunks).1.failedTransactions =
      ((chunks.enumFrom idx).map (fun p => chunkFailList send now p.1 p.2)).flatten := by
  intro idx chunks
  induction chunks generalizing idx with
  | nil => rfl
  | cons b rest ih =>
    cases hs : send idx b with
    | ok r =>
      simp only [runBatches, hs, List.enumFrom, List.map_cons, List.flatten_cons]
      rw [ih (idx + 1)]
      unfold chunkFailList
      rw [hs]
    | error msg =>
      simp only [runBatches, hs, List.enumFrom, List.map_cons, List.flatten_cons]
      rw [ih (idx + 1)]
      unfold chunkFailList
      rw [hs]

/-- `batchResults` collects exactly the responses of the chunks that did
not throw, in order. -/
lemma runBatches_batchResults
    (send : Nat → List SalesTransaction → Except String HanteoSalesResponse)
    (now d : Nat) :
    ∀ idx chunks, (runBatches send now d idx chunks).1.batchResults =
      (chunks.enumFrom idx).filterMap (fun p => (send p.1 p.2).toOption) := by
  intro idx chunks
  induction chunks generalizing idx with
  | nil => rfl
  | cons b rest ih =>
    cases hs : send idx b with
    | ok r =>
      simp only [runBatches, hs, List.enumFrom, List.filterMap_cons, Except.toOption]
      rw [ih (idx + 1)]
      rfl
    | error msg =>
      simp only [runBatches, hs, List.enumFrom, List.filterMap_cons, Except.toOption]
      rw [ih (idx + 1)]
      rfl

/-- Every chunk is submitted, whether or not earlier chunks threw. -/
lemma runBatches_sends
    (send : Nat → List SalesTransaction → Except String HanteoSalesResponse)
    (now d : Nat) :
    ∀ idx chunks, (runBatches send now d idx chunks).2.filter isSendEvent =
      chunks.map BatchEvent.send := by
  intro idx chunks
  induction chunks generalizing idx with
  | nil => rfl
  | cons b rest ih =>
    cases hs : send idx b with
    | ok r =>
      simp only [runBatches, hs]
      rw [List.filter_cons]
      simp only [isSendEvent, if_true]
      rw [List.filter_append]
      cases rest with
      | nil => simp [ih (idx + 1), isSendEvent]
      | cons b2 rest2 => simp [ih (idx + 1), isSendEvent]
    | error msg =>
      simp only [runBatches, hs]
      rw [List.filter_cons]
      simp [ih (idx + 1), isSendEvent]

/-- Membership in `enumFrom` from an index lookup. -/
lemma get?_mem_enumFrom :
    ∀ (l : List (List SalesTransaction)) (n j : Nat) (x : List SalesTransaction),
      l[j]? = some x → (n + j, x) ∈ l.enumFrom n := by
  intro l
  induction l with
  | nil =>
    intro n j x h
    simp at h
  | cons a as ih =>
    intro n j x h
    cases j with
    | zero =>
      simp at h
      subst h
      simp [List.enumFrom]
    | succ k =>
      simp only [List.getElem?_cons_succ] at h
      have hmem := ih (n + 1) k x h
      have : n + (k + 1) = n + 1 + k := by omega
      rw [this]
      exact List.mem_cons_of_mem _ hmem

set_option maxRecDepth 8000 in
/-- Claim C4: for every transaction list and positive chunk size c,
`sendSalesDataInBatches` splits the input into exactly ceiling(n/c)
contiguous chunks in order — every chunk except the last of size c, the
last of size n mod c when c does not divide n (250 transactions at size
100 give chunks 100, 100, 50) — and processes them sequentially with the
configured inter-chunk delay between consecutive chunk submissions (shown
for runs in which every chunk submission succeeds). -/
theorem sendSalesDataInBatches_chunking
    (send : Nat → List SalesTransaction → Except String HanteoSalesResponse)
    (now c d : Nat) (txs : List SalesTransaction) (hc : 0 < c)
    (hok : ∀ i b, ∃ r, send i b = Except.ok r) :
    (chunkList c txs).length = (txs.length + c - 1) / c ∧
    (chunkList c txs).flatten = txs ∧
    (∀ ch ∈ (chunkList c txs).dropLast, ch.length = c) ∧
    (txs ≠ [] → ∃ last, (chunkList c txs).getLast? = some last ∧
      last.length = if txs.length % c = 0 then c else txs.length % c) ∧
    (sendSalesDataInBatches send now c d txs).2 =
      List.intersperse (BatchEvent.delay d) ((chunkList c txs).map BatchEvent.send) ∧
    (chunkList 100 (List.replicate 250 tx0)).map List.length = [100, 100, 50] := by
  refine ⟨chunkList_length c hc txs, chunkList_join c hc txs,
    chunkList_dropLast_sizes c hc txs, chunkList_getLast c hc txs, ?_, ?_⟩
  · unfold sendSalesDataInBatches
    exact runBatches_trace_all_ok send now d hok 0 (chunkList c txs)
  · rfl

/-- Claim C4 witness: three transactions at chunk size 2 produce the trace
submit-delay-submit with chunks [tx0, tx1] and [tx2]. -/
theorem sendSalesDataInBatches_chunking_witness :
    (sendSalesDataInBatches (fun _ _ => Except.ok okResp) 0 2 5 [tx0, tx1, tx2]).2 =
      List.intersperse (BatchEvent.delay 5)
        ((chunkList 2 [tx0, tx1, tx2]).map BatchEvent.send) :=
  (sendSalesDataInBatches_chunking (fun _ _ => Except.ok okResp) 0 2 5
    [tx0, tx1, tx2] (by decide) (fun _ _ => ⟨okResp, rfl⟩)).2.2.2.2.1

/-- Claim C5: if the chunk at index j throws an exception with message
`msg`, every transaction of that chunk is recorded in
`failedTransactions` with that message, the chunk contributes its full
size to `totalFailed` (which aggregates all chunk contributions), the
responses of the non-throwing chunks are all kept in order in
`batchResults`, and every chunk — before and after the failing one — is
still submitted. -/
theorem sendSalesDataInBatches_chunk_error_isolated
    (send : Nat → List SalesTransaction → Except String HanteoSalesResponse)
    (now c d j : Nat) (txs bj : List SalesTransaction) (msg : String)
    (hj : (chunkList c txs)[j]? = some bj)
    (herr : send j bj = Except.error msg) :
    (∀ tx ∈ bj,
      (tx, msg) ∈ (sendSalesDataInBatches send now c d txs).1.failedTransactions) ∧
    chunkFailCount send j bj = bj.length ∧
    (sendSalesDataInBatches send now c d txs).1.totalFailed =
      (((chunkList c txs).enumFrom 0).map (fun p => chunkFailCount send p.1 p.2)).sum ∧
    (sendSalesDataInBatches send now c d txs).1.batchResults =
      ((chunkList c txs).enumFrom 0).filterMap (fun p => (send p.1 p.2).toOption) ∧
    (sendSalesDataInBatches send now c d txs).2.filter isSendEvent =
      (chunkList c txs).map BatchEvent.send := by
  refine ⟨?_, ?_, ?_, ?_, ?_⟩
  · intro tx htx
    have hmem : (0 + j, bj) ∈ (chunkList c txs).enumFrom 0 :=
      get?_mem_enumFrom _ 0 j bj hj
    unfold sendSalesDataInBatches
    rw [runBatches_failedTransactions]
    apply List.mem_flatten.mpr
    refine ⟨chunkFailList send now (0 + j) bj, ?_, ?_⟩
    · exact List.mem_map_of_mem _ hmem
    · unfold chunkFailList
      have h0 : 0 + j = j := by omega
      rw [h0, herr]
      exact List.mem_map_of_mem _ htx
  · unfold chunkFailCount
    rw [herr]
  · unfold sendSalesDataInBatches
    exact runBatches_totalFailed send now d 0 (chunkList c txs)
  · unfold sendSalesDataInBatches
    exact runBatches_batchResults send now d 0 (chunkList c txs)
  · unfold sendSalesDataInBatches
    exact runBatches_sends send now d 0 (chunkList c txs)

/-- Claim C5 witness: with the first of two chunks throwing a network
error, the first chunk member tx0 is recorded as failed with that
message. -/
theorem sendSalesDataInBatches_chunk_error_isolated_witness :
    (tx0, "Network error") ∈
      (sendSalesDataInBatches sendFail0 0 2 5 [tx0, tx1, tx2]).1.failedTransactions :=
  (sendSalesDataInBatches_chunk_error_isolated sendFail0 0 2 5 0 [tx0, tx1, tx2]
    [tx0, tx1] "Network error" (by decide) rfl).1 tx0 (by decide)

/-- A whitespace character is neither a decimal digit nor the ISBN check
character X. -/
lemma ws_char_facts (c : Char) (h : isJsWhitespace c = true) :
    isDigitChar c = false ∧ (c == 'X') = false := by
  constructor
  · rw [Bool.eq_false_iff]
    intro hd
    unfold isJsWhitespace at h
    unfold isDigitChar at hd
    simp only [Bool.or_eq_true, Bool.and_eq_true, beq_iff_eq,
      decide_eq_true_eq] at h hd
    omega
  · rw [Bool.eq_false_iff]
    intro hx
    have hc : c = 'X' := by simpa using hx
    subst hc
    exact absurd h (by decide)

/-- A string matching the 13-digit ISBN pattern consists of thirteen
decimal digits. -/
lemma isbn13_all_digits (l : List Char)
    (hlen : l.length = 13) (h97 : l.take 2 = ['9', '7'])
    (h89 : ((l.drop 2).take 1).all (fun c => c == '8' || c == '9') = true)
    (hdig : (l.drop 3).all isDigitChar = true) :
    l.all isDigitChar = true := by
  cases l with
  | nil => simp at hlen
  | cons a l1 =>
    cases l1 with
    | nil => simp at hlen
    | cons b l2 =>
      cases l2 with
      | nil => simp at hlen
      | cons e l3 =>
        simp only [List.take, List.cons.injEq] at h97
        obtain ⟨ha, hb, -⟩ := h97
        subst ha
        subst hb
        simp only [List.drop, List.take, List.all_cons, List.all_nil,
          Bool.and_true, Bool.or_eq_true, beq_iff_eq] at h89
        simp only [List.drop] at hdig
        simp only [List.all_cons, Bool.and_eq_true]
        refine ⟨by decide, by decide, ?_, hdig⟩
        rcases h89 with h | h <;> subst h <;> decide

/-- The five implementation regexes accept exactly the spec wording. -/
lemma patterns_iff_spec (l : List Char) :
    (matchesEAN13 l || matchesEAN8 l || matchesUPC l || matchesISBN10 l ||
      matchesISBN13 l) = true ↔ BarcodeSpec l := by
  unfold matchesEAN13 matchesEAN8 matchesUPC matchesISBN10 matchesISBN13 BarcodeSpec
  simp only [Bool.or_eq_true, Bool.and_eq_true, beq_iff_eq]
  constructor
  · intro h
    rcases h with ((((⟨h1, h2⟩ | ⟨h1, h2⟩) | ⟨h1, h2⟩) | ⟨⟨h1, h2⟩, h3⟩) |
      ⟨⟨⟨h1, h2⟩, h3⟩, h4⟩)
    · exact Or.inl ⟨h2, Or.inr (Or.inr h1)⟩
    · exact Or.inl ⟨h2, Or.inl h1⟩
    · exact Or.inl ⟨h2, Or.inr (Or.inl h1)⟩
    · exact Or.inr (Or.inl ⟨h1, h2, h3⟩)
    · exact Or.inl ⟨isbn13_all_digits l h1 h2 h3 h4, Or.inr (Or.inr h1)⟩
  · intro h
    rcases h with ⟨hd, h8 | h12 | h13⟩ | ⟨h1, h2, h3⟩ | ⟨h1, -, hd⟩
    · exact Or.inl (Or.inl (Or.inl (Or.inr ⟨h8, hd⟩)))
    · exact Or.inl (Or.inl (Or.inr ⟨h12, hd⟩))
    · exact Or.inl (Or.inl (Or.inl (Or.inl ⟨h13, hd⟩)))
    · exact Or.inl (Or.inr ⟨⟨h1, h2⟩, h3⟩)
    · exact Or.inl (Or.inl (Or.inl (Or.inl ⟨h1, hd⟩)))

/-- Claim C7: `isValidBarcode` accepts a string exactly when its trimmed
value is a numeric string of length 8, 12 or 13, or matches the 10-digit
or 13-digit ISBN pattern, and rejects every other input; in particular a
trimmed value still containing whitespace (internal whitespace) is always
rejected. -/
theorem isValidBarcode_matches_spec (s : String) :
    (isValidBarcode s = true ↔ BarcodeSpec (jsTrimList s.data)) ∧
    ((jsTrimList s.data).any isJsWhitespace = true → isValidBarcode s = false) := by
  have hiff : isValidBarcode s = true ↔ BarcodeSpec (jsTrimList s.data) := by
    unfold isValidBarcode
    by_cases hempty : (s == "") = true
    · have hs : s = "" := by simpa using hempty
      subst hs
      simp [BarcodeSpec, jsTrimList]
    · have hne : (s == "") = false := by simpa using hempty
      simp only [hne, Bool.false_eq_true, if_false]
      by_cases hlen : ((jsTrimList s.data).length == 0) = true
      · have hnil : jsTrimList s.data = [] := by
          rw [← List.length_eq_zero]
          simpa using hlen
        simp [hlen, hnil, BarcodeSpec]
      · have hlenf : ((jsTrimList s.data).length == 0) = false := by simpa using hlen
        simp only [hlenf, Bool.false_eq_true, if_false]
        exact patterns_iff_spec _
  refine ⟨hiff, ?_⟩
  intro hws
  rw [Bool.eq_false_iff]
  intro hvt
  have hspec := hiff.mp hvt
  obtain ⟨cch, hcmem, hcws⟩ := List.any_eq_true.mp hws
  obtain ⟨hnd, hnx⟩ := ws_char_facts cch hcws
  rcases hspec with ⟨hd, -⟩ | ⟨-, htake, hdrop⟩ | ⟨-, -, hd⟩
  · have hc := List.all_eq_true.mp hd cch hcmem
    rw [hnd] at hc
    cases hc
  · have hsplit : cch ∈ (jsTrimList s.data).take 9 ∨
        cch ∈ (jsTrimList s.data).drop 9 := by
      rw [← List.mem_append, List.take_append_drop]
      exact hcmem
    rcases hsplit with hin | hin
    · have hc := List.all_eq_true.mp htake cch hin
      rw [hnd] at hc
      cases hc
    · have hc := List.all_eq_true.mp hdrop cch hin
      simp only [Bool.or_eq_true] at hc
      rcases hc with hc | hc
      · rw [hnd] at hc
        cases hc
      · rw [hnx] at hc
        cases hc
  · have hc := List.all_eq_true.mp hd cch hcmem
    rw [hnd] at hc
    cases hc

/-- Claim C7 witness: a padded EAN-13 is accepted after trimming, and a
barcode with an internal space is rejected. -/
theorem isValidBarcode_matches_spec_witness :
    isValidBarcode " 8809633189505 " = true ∧
    (jsTrimList "88096 33189505".data).any isJsWhitespace = true ∧
    isValidBarcode "88096 33189505" = false := by
  refine ⟨?_, by decide, ?_⟩
  · exact (isValidBarcode_matches_spec " 8809633189505 ").1.mpr
      (by unfold BarcodeSpec; decide)
  · exact (isValidBarcode_matches_spec "88096 33189505").2 (by decide)

end Spec2Proof
